import Mathlib

/-!
Shallow embedding of the `BoneManipulationController` component of the
repository (file `src/unnamed/part_007`): the three.js vector, quaternion
and matrix arithmetic it relies on, the scene-graph world transform of the
skeleton's bone nodes, the CCD (cyclic coordinate descent) inverse
kinematics solver `solveIK`, and the controller state machine
(`setMode` / `update` / `cleanup` / `dispose`).  Real numbers stand in for
JavaScript's floating-point numbers.
-/

noncomputable section

open scoped Classical

/-- three.js `Vector3`: a triple of coordinates. -/
structure Vec3 where
  x : ℝ
  y : ℝ
  z : ℝ

/-- Component-wise vector addition (`Vector3.add`). -/
def Vec3.add (a b : Vec3) : Vec3 := ⟨a.x + b.x, a.y + b.y, a.z + b.z⟩

/-- Component-wise vector subtraction (`Vector3.subVectors(a, b)`). -/
def Vec3.sub (a b : Vec3) : Vec3 := ⟨a.x - b.x, a.y - b.y, a.z - b.z⟩

/-- Scalar multiple of a vector (`Vector3.multiplyScalar`). -/
def Vec3.smul (c : ℝ) (v : Vec3) : Vec3 := ⟨c * v.x, c * v.y, c * v.z⟩

/-- Dot product (`Vector3.dot`). -/
def Vec3.dot (a b : Vec3) : ℝ := a.x * b.x + a.y * b.y + a.z * b.z

/-- Cross product (`Vector3.cross`). -/
def Vec3.cross (a b : Vec3) : Vec3 :=
  ⟨a.y * b.z - a.z * b.y, a.z * b.x - a.x * b.z, a.x * b.y - a.y * b.x⟩

/-- Squared length (`Vector3.lengthSq`). -/
def Vec3.lengthSq (v : Vec3) : ℝ := v.x * v.x + v.y * v.y + v.z * v.z

/-- Length (`Vector3.length`). -/
def Vec3.length (v : Vec3) : ℝ := Real.sqrt v.lengthSq

/-- three.js `Vector3.normalize`: `divideScalar(length || 1)`; a zero vector
is returned unchanged. -/
def Vec3.normalize (v : Vec3) : Vec3 :=
  let l := v.length
  let d := if l = 0 then 1 else l
  ⟨v.x / d, v.y / d, v.z / d⟩

/-- Distance between two points (`Vector3.distanceTo`). -/
def Vec3.distanceTo (a b : Vec3) : ℝ := Real.sqrt (Vec3.lengthSq (Vec3.sub a b))

/-- The zero vector. -/
def Vec3.zero : Vec3 := ⟨0, 0, 0⟩

/-- The all-ones vector (three.js default `Object3D.scale`). -/
def Vec3.ones : Vec3 := ⟨1, 1, 1⟩

/-- three.js `Quaternion`. -/
structure Quat where
  x : ℝ
  y : ℝ
  z : ℝ
  w : ℝ

/-- The identity quaternion (three.js default `Object3D.quaternion`). -/
def Quat.qid : Quat := ⟨0, 0, 0, 1⟩

/-- Squared length of a quaternion (`Quaternion.lengthSq`). -/
def Quat.lengthSq (q : Quat) : ℝ := q.x * q.x + q.y * q.y + q.z * q.z + q.w * q.w

/-- Length of a quaternion (`Quaternion.length`). -/
def Quat.length (q : Quat) : ℝ := Real.sqrt q.lengthSq

/-- three.js `Quaternion.normalize`: a zero quaternion becomes the identity,
otherwise each component is divided by the length. -/
def Quat.normalizeQ (q : Quat) : Quat :=
  let l := q.length
  if l = 0 then ⟨0, 0, 0, 1⟩ else ⟨q.x / l, q.y / l, q.z / l, q.w / l⟩

/-- three.js `Quaternion.multiplyQuaternions(a, b)`, the Hamilton product;
`a.multiply(b)` stores `a * b`. -/
def Quat.mul (a b : Quat) : Quat :=
  ⟨a.x * b.w + a.w * b.x + a.y * b.z - a.z * b.y,
   a.y * b.w + a.w * b.y + a.z * b.x - a.x * b.z,
   a.z * b.w + a.w * b.z + a.x * b.y - a.y * b.x,
   a.w * b.w - a.x * b.x - a.y * b.y - a.z * b.z⟩

/-- JavaScript `Number.EPSILON` = 2⁻⁵². -/
def numEpsilon : ℝ := 1 / 2 ^ 52

/-- three.js `Quaternion.setFromUnitVectors`: the minimal-arc rotation
mapping the unit vector `vFrom` onto the unit vector `vTo`, with a special
branch for (nearly) antiparallel inputs, followed by normalization. -/
def Quat.setFromUnitVectors (vFrom vTo : Vec3) : Quat :=
  let r := Vec3.dot vFrom vTo + 1
  if r < numEpsilon then
    (if |vFrom.x| > |vFrom.z| then
      Quat.normalizeQ ⟨-vFrom.y, vFrom.x, 0, 0⟩
    else
      Quat.normalizeQ ⟨0, -vFrom.z, vFrom.y, 0⟩)
  else
    Quat.normalizeQ
      ⟨vFrom.y * vTo.z - vFrom.z * vTo.y,
       vFrom.z * vTo.x - vFrom.x * vTo.z,
       vFrom.x * vTo.y - vFrom.y * vTo.x, r⟩

/-- A 3×3 matrix, stored as its three columns (the linear part of a
three.js `Matrix4`, which is stored column-major). -/
structure Mat3 where
  c1 : Vec3
  c2 : Vec3
  c3 : Vec3

/-- Matrix-vector product. -/
def Mat3.mulVec (m : Mat3) (v : Vec3) : Vec3 :=
  Vec3.add (Vec3.smul v.x m.c1) (Vec3.add (Vec3.smul v.y m.c2) (Vec3.smul v.z m.c3))

/-- Matrix-matrix product. -/
def Mat3.mulM (a b : Mat3) : Mat3 := ⟨a.mulVec b.c1, a.mulVec b.c2, a.mulVec b.c3⟩

/-- The identity matrix. -/
def Mat3.idM : Mat3 := ⟨⟨1, 0, 0⟩, ⟨0, 1, 0⟩, ⟨0, 0, 1⟩⟩

/-- Linear part of three.js `Matrix4.compose(position, quaternion, scale)`:
the quaternion term matrix with each column scaled by the scale component.
The entries follow the three.js source verbatim. -/
def composeLin (q : Quat) (s : Vec3) : Mat3 :=
  let x2 := q.x + q.x
  let y2 := q.y + q.y
  let z2 := q.z + q.z
  let xx := q.x * x2
  let xy := q.x * y2
  let xz := q.x * z2
  let yy := q.y * y2
  let yz := q.y * z2
  let zz := q.z * z2
  let wx := q.w * x2
  let wy := q.w * y2
  let wz := q.w * z2
  ⟨⟨(1 - (yy + zz)) * s.x, (xy + wz) * s.x, (xz - wy) * s.x⟩,
   ⟨(xy - wz) * s.y, (1 - (xx + zz)) * s.y, (yz + wx) * s.y⟩,
   ⟨(xz + wy) * s.z, (yz - wx) * s.z, (1 - (xx + yy)) * s.z⟩⟩

/-- An affine transform: a linear part and a translation (a three.js
`Matrix4` restricted to its rotation/scale block and position column). -/
structure Affine where
  lin : Mat3
  tra : Vec3

/-- The identity affine transform. -/
def Affine.idA : Affine := ⟨Mat3.idM, Vec3.zero⟩

/-- Composition of affine transforms, `a` applied after `b`
(three.js `matrixWorld = parent.matrixWorld * matrix`). -/
def Affine.comp (a b : Affine) : Affine :=
  ⟨a.lin.mulM b.lin, Vec3.add (a.lin.mulVec b.tra) a.tra⟩

/-- A three.js `Object3D` as the skeleton sees it: a parent link (an index
into the node list, always smaller than the node's own index), a local
position, a local rotation quaternion and a local scale. -/
structure Object3D where
  parent : Option Nat
  position : Vec3
  quaternion : Quat
  scale : Vec3

/-- `Object3D.updateMatrix`: the local matrix composed from position,
quaternion and scale. -/
def Object3D.trs (o : Object3D) : Affine := ⟨composeLin o.quaternion o.scale, o.position⟩

/-- The scene-graph node list; parent indices point into earlier entries. -/
abbrev World := List Object3D

/-- The world matrix of node `i`: its local matrix pre-composed with every
ancestor's, as `Object3D.updateWorldMatrix(true, false)` computes it. -/
def worldAffine (ns : World) (i : Nat) : Affine :=
  match ns[i]? with
  | none => Affine.idA
  | some o =>
    match o.parent with
    | none => o.trs
    | some p =>
      if h : p < i then Affine.comp (worldAffine ns p) o.trs else o.trs
termination_by i
decreasing_by exact h

/-- `Object3D.getWorldPosition`: the translation column of the updated
world matrix. -/
def getWorldPosition (ns : World) (i : Nat) : Vec3 := (worldAffine ns i).tra

/-- The twenty VRM humanoid bone names used by the controller. -/
inductive HumanBoneName where
  | hips | spine | chest | upperChest | neck | head
  | leftShoulder | leftUpperArm | leftLowerArm | leftHand
  | rightShoulder | rightUpperArm | rightLowerArm | rightHand
  | leftUpperLeg | leftLowerLeg | leftFoot
  | rightUpperLeg | rightLowerLeg | rightFoot
deriving DecidableEq, Repr

/-- The string spelling of a humanoid bone name. -/
def HumanBoneName.str : HumanBoneName → String
  | .hips => "hips"
  | .spine => "spine"
  | .chest => "chest"
  | .upperChest => "upperChest"
  | .neck => "neck"
  | .head => "head"
  | .leftShoulder => "leftShoulder"
  | .leftUpperArm => "leftUpperArm"
  | .leftLowerArm => "leftLowerArm"
  | .leftHand => "leftHand"
  | .rightShoulder => "rightShoulder"
  | .rightUpperArm => "rightUpperArm"
  | .rightLowerArm => "rightLowerArm"
  | .rightHand => "rightHand"
  | .leftUpperLeg => "leftUpperLeg"
  | .leftLowerLeg => "leftLowerLeg"
  | .leftFoot => "leftFoot"
  | .rightUpperLeg => "rightUpperLeg"
  | .rightLowerLeg => "rightLowerLeg"
  | .rightFoot => "rightFoot"

/-- `vrm.humanoid`: bone lookup by name (`getNormalizedBoneNode`), returning
the node's index in the world node list, or `none` for an absent bone. -/
abbrev Humanoid := HumanBoneName → Option Nat

/-- The hardcoded IK chain table of `solveIK` (`chains[endEffectorName]`). -/
def chainBones (endEffectorName : String) : Option (List HumanBoneName) :=
  if endEffectorName = "leftHand" then
    some [.leftUpperArm, .leftLowerArm, .leftHand]
  else if endEffectorName = "rightHand" then
    some [.rightUpperArm, .rightLowerArm, .rightHand]
  else if endEffectorName = "leftFoot" then
    some [.leftUpperLeg, .leftLowerLeg, .leftFoot]
  else if endEffectorName = "rightFoot" then
    some [.rightUpperLeg, .rightLowerLeg, .rightFoot]
  else none

/-- `chain.map(getNormalizedBoneNode).filter(bone ≠ null)` of `solveIK`. -/
def resolvedBones (h : Humanoid) (chain : List HumanBoneName) : List Nat :=
  chain.filterMap h

/-- The convergence threshold of `solveIK` (0.01 units). -/
def threshold : ℝ := 0.01

/-- The outer iteration count of `solveIK`. -/
def iterations : Nat := 10

/-- Index of the end-effector node: `bones[bones.length - 1]`. -/
def eeIndex (bones : List Nat) : Nat := bones.getD (bones.length - 1) 0

/-- Current distance from the end effector to the target
(`endEffectorPos.distanceTo(targetPos)`). -/
def ccdDist (bones : List Nat) (target : Vec3) (w : World) : ℝ :=
  Vec3.distanceTo (getWorldPosition w (eeIndex bones)) target

/-- The body of one inner step of `solveIK` at chain position `i` past the
distance check: compute the unit vectors from the bone to the end effector
and to the target, form the minimal-arc quaternion between them, and
post-multiply it onto the bone's local quaternion. -/
def ccdApply (bones : List Nat) (target : Vec3) (i : Nat) (w : World) : World :=
  let boneIdx := bones.getD i 0
  let bonePos := getWorldPosition w boneIdx
  let endEffectorPos := getWorldPosition w (eeIndex bones)
  let toEnd := Vec3.normalize (Vec3.sub endEffectorPos bonePos)
  let toTarget := Vec3.normalize (Vec3.sub target bonePos)
  let rotationQuat := Quat.setFromUnitVectors toEnd toTarget
  match w[boneIdx]? with
  | none => w
  | some o => w.set boneIdx { o with quaternion := Quat.mul o.quaternion rotationQuat }

/-- The inner loop of `solveIK` from chain position `i` down to 0: at each
position the end-effector distance is re-checked and the loop `break`s once
it is below the threshold, otherwise the bone is rotated. -/
def ccdInnerFrom (bones : List Nat) (target : Vec3) : Nat → World → World
  | 0, w =>
    if ccdDist bones target w < threshold then w else ccdApply bones target 0 w
  | i + 1, w =>
    if ccdDist bones target w < threshold then w
    else ccdInnerFrom bones target i (ccdApply bones target (i + 1) w)

/-- One outer iteration of `solveIK`: the inner loop from
`bones.length - 2` down to `0`. -/
def ccdIteration (bones : List Nat) (target : Vec3) (w : World) : World :=
  ccdInnerFrom bones target (bones.length - 2) w

/-- The outer loop of `solveIK`: `n` iterations. -/
def ccdLoop (bones : List Nat) (target : Vec3) : Nat → World → World
  | 0, w => w
  | n + 1, w => ccdLoop bones target n (ccdIteration bones target w)

/-- The manipulation mode enumeration (`BoneManipulationMode`). -/
inductive Mode where
  | off | ik | fk
deriving DecidableEq, Repr

/-- Scene-membership tags for the objects the controller adds to the
three.js scene: its helper group, the internal root of the current
`TransformControls`, and foreign objects owned by others. -/
inductive SceneObj where
  | helperGroup
  | tcRoot
  | other (n : Nat)
deriving DecidableEq, Repr

/-- A child of the controller's helper group, by tag: a marker mesh
(identified by its `name`) or the `LineSegments` skeleton overlay. -/
inductive HelperChild where
  | meshOf (nm : String)
  | linesObj
deriving DecidableEq, Repr

/-- A marker mesh: name, the `userData.boneName` / `userData.ikBoneName`
fields, material color, sphere radius, opacity, and world position. -/
structure MeshObj where
  name : String
  userBoneName : Option HumanBoneName
  userIkBoneName : Option HumanBoneName
  color : Nat
  radius : ℝ
  opacity : ℝ
  position : Vec3

/-- The `LineSegments` skeleton overlay: its flat position attribute. -/
structure LinesObj where
  positions : List ℝ

/-- What a `TransformControls` widget can be attached to: a bone node of
the skeleton (FK mode) or a marker mesh (IK mode). -/
inductive AttachTarget where
  | boneNode (i : Nat)
  | helperMesh (nm : String)
deriving DecidableEq, Repr

/-- The `TransformControls` widget state the controller configures. -/
structure TransformCtl where
  tmode : String
  size : ℝ
  space : String
  showX : Bool
  showY : Bool
  showZ : Bool
  attachedObj : Option AttachTarget

/-- The `BoneManipulationController` state: the VRM's humanoid, the mode,
the `boneHelpers` map, the `boneLines` overlay, the helper group's
children, the transform widget, the recorded IK targets (keyed by the
end-effector name string), the two click listeners, and the scene
contents. -/
structure Controller where
  humanoid : Option Humanoid
  mode : Mode
  boneHelpers : List (HumanBoneName × MeshObj)
  boneLines : Option LinesObj
  helperChildren : List HelperChild
  transformControl : Option TransformCtl
  ikTargets : List (String × Vec3)
  fkClickAttached : Bool
  ikClickAttached : Bool
  scene : List SceneObj

/-- `Map.set` on the `boneHelpers` association list: replace the value of
an existing key, otherwise append. -/
def mapSet (m : List (HumanBoneName × MeshObj)) (k : HumanBoneName) (v : MeshObj) :
    List (HumanBoneName × MeshObj) :=
  match m with
  | [] => [(k, v)]
  | (k', v') :: rest => if k' = k then (k, v) :: rest else (k', v') :: mapSet rest k v

/-- `Map.get` on the string-keyed `ikTargets` association list. -/
def lookupStr (m : List (String × Vec3)) (k : String) : Option Vec3 :=
  match m with
  | [] => none
  | (k', v) :: rest => if k' = k then some v else lookupStr rest k

/-- The bone list of `setupFKMode`, in source order. -/
def fkBoneNames : List HumanBoneName :=
  [.hips, .spine, .chest, .upperChest, .neck, .head,
   .leftShoulder, .leftUpperArm, .leftLowerArm, .leftHand,
   .rightShoulder, .rightUpperArm, .rightLowerArm, .rightHand,
   .leftUpperLeg, .leftLowerLeg, .leftFoot,
   .rightUpperLeg, .rightLowerLeg, .rightFoot]

/-- The end-effector list of `setupIKMode`, with marker colors. -/
def ikBoneList : List (HumanBoneName × Nat) :=
  [(.leftHand, 0xff0000), (.rightHand, 0x0000ff),
   (.leftFoot, 0xffff00), (.rightFoot, 0x00ffff)]

/-- The bone connection list of `createBoneLines`/`updateBoneLines`. -/
def connections : List (HumanBoneName × HumanBoneName) :=
  [(.hips, .spine), (.spine, .chest), (.chest, .upperChest),
   (.upperChest, .neck), (.neck, .head),
   (.upperChest, .leftShoulder), (.leftShoulder, .leftUpperArm),
   (.leftUpperArm, .leftLowerArm), (.leftLowerArm, .leftHand),
   (.upperChest, .rightShoulder), (.rightShoulder, .rightUpperArm),
   (.rightUpperArm, .rightLowerArm), (.rightLowerArm, .rightHand),
   (.hips, .leftUpperLeg), (.leftUpperLeg, .leftLowerLeg),
   (.leftLowerLeg, .leftFoot),
   (.hips, .rightUpperLeg), (.rightUpperLeg, .rightLowerLeg),
   (.rightLowerLeg, .rightFoot)]

/-- The green FK marker sphere created for a present bone. -/
def fkMesh (bn : HumanBoneName) (pos : Vec3) : MeshObj :=
  ⟨bn.str, some bn, none, 0x00ff00, 0.03, 0.7, pos⟩

/-- The colored IK end-effector marker sphere created for a present bone. -/
def ikMesh (bn : HumanBoneName) (color : Nat) (pos : Vec3) : MeshObj :=
  ⟨"ik_" ++ bn.str, none, some bn, color, 0.05, 0.8, pos⟩

/-- The `boneNames.forEach` loop of `setupFKMode`: for each present bone,
set its marker in the helpers map and add it to the helper group. -/
def setupFKHelpers (h : Humanoid) (w : World)
    (acc : List (HumanBoneName × MeshObj) × List HelperChild) :
    List HumanBoneName → List (HumanBoneName × MeshObj) × List HelperChild
  | [] => acc
  | bn :: rest =>
    match h bn with
    | none => setupFKHelpers h w acc rest
    | some i =>
      setupFKHelpers h w
        (mapSet acc.1 bn (fkMesh bn (getWorldPosition w i)),
         acc.2 ++ [HelperChild.meshOf bn.str]) rest

/-- The `ikBones.forEach` loop of `setupIKMode`. -/
def setupIKHelpers (h : Humanoid) (w : World)
    (acc : List (HumanBoneName × MeshObj) × List HelperChild) :
    List (HumanBoneName × Nat) → List (HumanBoneName × MeshObj) × List HelperChild
  | [] => acc
  | (bn, color) :: rest =>
    match h bn with
    | none => setupIKHelpers h w acc rest
    | some i =>
      setupIKHelpers h w
        (mapSet acc.1 bn (ikMesh bn color (getWorldPosition w i)),
         acc.2 ++ [HelperChild.meshOf ("ik_" ++ bn.str)]) rest

/-- The flat position attribute built by `createBoneLines` and
`updateBoneLines`: six coordinates per connection whose two bones are both
present; connections with an absent bone contribute nothing. -/
def linesPositions (h : Humanoid) (w : World) : List ℝ :=
  (connections.filterMap (fun pc =>
    match h pc.1, h pc.2 with
    | some pi, some ci =>
      some [(getWorldPosition w pi).x, (getWorldPosition w pi).y,
            (getWorldPosition w pi).z, (getWorldPosition w ci).x,
            (getWorldPosition w ci).y, (getWorldPosition w ci).z]
    | _, _ => none)).flatten

/-- `setupFKMode`: bail out with no humanoid; otherwise create the per-bone
markers, the skeleton overlay, a rotate-mode local-space transform widget
whose root is added to the scene, and the FK click listener. -/
def setupFKMode (c : Controller) (w : World) : Controller :=
  match c.humanoid with
  | none => c
  | some h =>
    let hc := setupFKHelpers h w (c.boneHelpers, c.helperChildren) fkBoneNames
    { c with
      boneHelpers := hc.1
      helperChildren := hc.2 ++ [HelperChild.linesObj]
      boneLines := some ⟨linesPositions h w⟩
      transformControl := some ⟨"rotate", 0.5, "local", true, true, true, none⟩
      scene := c.scene ++ [SceneObj.tcRoot]
      fkClickAttached := true }

/-- `setupIKMode`: bail out with no humanoid; otherwise create the four
end-effector markers, the skeleton overlay, a translate-mode world-space
transform widget whose root is added to the scene, and the IK click
listener. -/
def setupIKMode (c : Controller) (w : World) : Controller :=
  match c.humanoid with
  | none => c
  | some h =>
    let hc := setupIKHelpers h w (c.boneHelpers, c.helperChildren) ikBoneList
    { c with
      boneHelpers := hc.1
      helperChildren := hc.2 ++ [HelperChild.linesObj]
      boneLines := some ⟨linesPositions h w⟩
      transformControl := some ⟨"translate", 0.8, "world", true, true, true, none⟩
      scene := c.scene ++ [SceneObj.tcRoot]
      ikClickAttached := true }

/-- `cleanup()`: clear the helper group, the helpers map, the overlay and
the recorded IK targets; if a transform widget exists, detach it, remove
its root from the scene and dispose it; remove both click listeners. -/
def cleanupC (c : Controller) : Controller :=
  { c with
    boneHelpers := []
    helperChildren := []
    boneLines := none
    ikTargets := []
    transformControl := none
    scene :=
      match c.transformControl with
      | none => c.scene
      | some _ => c.scene.erase SceneObj.tcRoot
    fkClickAttached := false
    ikClickAttached := false }

/-- `setMode(mode)`: always `cleanup()` first, record the new mode, then
run the new mode's setup. -/
def setMode (c : Controller) (w : World) (m : Mode) : Controller :=
  let c1 := { cleanupC c with mode := m }
  match m with
  | .fk => setupFKMode c1 w
  | .ik => setupIKMode c1 w
  | .off => c1

/-- `dispose()`: `cleanup()` and then remove the helper group from the
scene. -/
def dispose (c : Controller) : Controller :=
  let c1 := cleanupC c
  { c1 with scene := c1.scene.erase SceneObj.helperGroup }

/-- `update()`: a no-op when the mode is off; otherwise refresh each
marker's position from its (present) bone and rebuild the overlay
geometry.  Markers of absent bones are left untouched. -/
def updateC (c : Controller) (w : World) : Controller :=
  if c.mode = Mode.off then c
  else
    { c with
      boneHelpers := c.boneHelpers.map (fun p =>
        match c.humanoid with
        | none => p
        | some h =>
          match h p.1 with
          | none => p
          | some i => (p.1, { p.2 with position := getWorldPosition w i }))
      boneLines :=
        match c.boneLines with
        | none => none
        | some l =>
          match c.humanoid with
          | none => some l
          | some h => some ⟨linesPositions h w⟩ }

/-- The constructor: mode off, nothing active, and the helper group added
to the scene. -/
def mkController (h : Option Humanoid) (scene0 : List SceneObj) : Controller :=
  ⟨h, Mode.off, [], none, [], none, [], false, false,
   scene0 ++ [SceneObj.helperGroup]⟩

/-- `solveIK(endEffectorName)`: guard on the humanoid, the recorded target
and the chain table; resolve the chain's present bones; require at least
two; then run ten CCD iterations. -/
def solveIK (c : Controller) (w : World) (endEffectorName : String) : World :=
  match c.humanoid with
  | none => w
  | some humanoid =>
    match lookupStr c.ikTargets endEffectorName with
    | none => w
    | some targetPos =>
      match chainBones endEffectorName with
      | none => w
      | some chain =>
        let bones := resolvedBones humanoid chain
        if bones.length < 2 then w
        else ccdLoop bones targetPos iterations w

/-- Scene-content sanity: the scene holds at most one transform-widget
root (none when no widget is alive) and at most one helper group.  The
constructor establishes this and every controller operation preserves
it. -/
def ControllerWF (c : Controller) : Prop :=
  c.scene.count SceneObj.tcRoot ≤
    (match c.transformControl with | none => 0 | some _ => 1) ∧
  c.scene.count SceneObj.helperGroup ≤ 1

/-! ### Concrete fixtures used by witnesses and counterexamples -/

/-- A two-node chain: a root at the origin and a child one unit along x,
both with identity rotation and unit scale. -/
def wTwo : World :=
  [⟨none, ⟨0, 0, 0⟩, Quat.qid, Vec3.ones⟩,
   ⟨some 0, ⟨1, 0, 0⟩, Quat.qid, Vec3.ones⟩]

/-- A three-node left-arm chain in rest pose along the x axis. -/
def wArm : World :=
  [⟨none, ⟨0, 0, 0⟩, Quat.qid, Vec3.ones⟩,
   ⟨some 0, ⟨1, 0, 0⟩, Quat.qid, Vec3.ones⟩,
   ⟨some 1, ⟨1, 0, 0⟩, Quat.qid, Vec3.ones⟩]

/-- A humanoid exposing exactly the left-arm chain, at nodes 0, 1, 2. -/
def hArm : Humanoid := fun bn =>
  match bn with
  | .leftUpperArm => some 0
  | .leftLowerArm => some 1
  | .leftHand => some 2
  | _ => none

/-- A humanoid exposing the left arm with the lower arm absent. -/
def hArmGap : Humanoid := fun bn =>
  match bn with
  | .leftUpperArm => some 0
  | .leftHand => some 2
  | _ => none

/-- The two-node world of the C1 counterexample: the root bone carries a
180°-about-x rotation (the unit quaternion ⟨1,0,0,0⟩) and its child sits
one unit along local y, so the end effector is at world (0,−1,0). -/
def wFlip : World :=
  [⟨none, ⟨0, 0, 0⟩, ⟨1, 0, 0, 0⟩, Vec3.ones⟩,
   ⟨some 0, ⟨0, 1, 0⟩, Quat.qid, Vec3.ones⟩]

/-- A controller in IK mode holding a recorded left-hand target (a state
`onIKTransform` produces during a drag). -/
def cIkTargets : Controller :=
  ⟨none, Mode.ik, [], none, [], none, [("leftHand", ⟨0, 0, 0⟩)], false, false,
   [SceneObj.helperGroup]⟩

/-- A controller owning the left-arm humanoid whose recorded left-hand
target coincides with the hand's rest world position (2,0,0) in `wArm`. -/
def cArm : Controller :=
  ⟨some hArm, Mode.off, [], none, [], none, [("leftHand", ⟨2, 0, 0⟩)], false,
   false, [SceneObj.helperGroup]⟩

/-! ### Helper lemmas -/

theorem Vec3.distanceTo_self (a : Vec3) : Vec3.distanceTo a a = 0 := by
  simp [Vec3.distanceTo, Vec3.sub, Vec3.lengthSq]

theorem thresholdPos : (0 : ℝ) < threshold := by norm_num [threshold]

theorem ccdInnerFrom_frozen (bones : List Nat) (target : Vec3) (w : World)
    (h : ccdDist bones target w < threshold) (i : Nat) :
    ccdInnerFrom bones target i w = w := by
  cases i with
  | zero => simp only [ccdInnerFrom, if_pos h]
  | succ n => simp only [ccdInnerFrom, if_pos h]

theorem ccdIteration_frozen (bones : List Nat) (target : Vec3) (w : World)
    (h : ccdDist bones target w < threshold) :
    ccdIteration bones target w = w :=
  ccdInnerFrom_frozen bones target w h _

theorem ccdLoop_frozen (bones : List Nat) (target : Vec3) (w : World)
    (h : ccdDist bones target w < threshold) (n : Nat) :
    ccdLoop bones target n w = w := by
  induction n with
  | zero => rfl
  | succ n ih =>
    simp only [ccdLoop, ccdIteration_frozen bones target w h, ih]

/-! ### C2 -/

/-- C2: the CCD solver's outer loop runs a fixed `iterations = 10` times,
and as soon as the end effector is within the 0.01 `threshold` of the
target the solve is over: every remaining inner step and every remaining
outer iteration leaves the world unchanged, so no further bone rotation is
applied.  (In the source the `break` sits in the inner loop; each later
outer iteration re-enters the inner loop and breaks immediately, which is
state-for-state the same as exiting the outer loop at that point.) -/
theorem c2_threshold_freezes (bones : List Nat) (target : Vec3) (w : World)
    (h : ccdDist bones target w < threshold) :
    (∀ i, ccdInnerFrom bones target i w = w) ∧
    (∀ n, ccdLoop bones target n w = w) ∧
    threshold = 0.01 ∧ iterations = 10 :=
  ⟨fun i => ccdInnerFrom_frozen bones target w h i,
   fun n => ccdLoop_frozen bones target w h n, rfl, rfl⟩

/-- Witness for C2: in the two-bone rest chain with the target placed on
the end effector, the distance check fires and all ten iterations leave
the world untouched. -/
theorem c2_threshold_freezes_witness :
    ccdDist [0, 1] (⟨1, 0, 0⟩ : Vec3) wTwo < threshold ∧
    (∀ n, ccdLoop [0, 1] (⟨1, 0, 0⟩ : Vec3) n wTwo = wTwo) := by
  have h1 : getWorldPosition wTwo 1 = ⟨1, 0, 0⟩ := by
    simp [getWorldPosition, wTwo, worldAffine, Object3D.trs, composeLin,
      Quat.qid, Vec3.ones, Affine.comp, Mat3.mulM, Mat3.mulVec, Vec3.smul,
      Vec3.add, Vec3.zero, Affine.idA, Mat3.idM]
  have h : ccdDist [0, 1] (⟨1, 0, 0⟩ : Vec3) wTwo < threshold := by
    have h2 : eeIndex [0, 1] = 1 := rfl
    rw [ccdDist, h2, h1, Vec3.distanceTo_self]
    exact thresholdPos
  exact ⟨h, (c2_threshold_freezes [0, 1] ⟨1, 0, 0⟩ wTwo h).2.1⟩

/-! ### C3 -/

/-- C3: for any end-effector name among the four supported ones, if the
recorded target equals the end effector's current world position then
`solveIK` leaves the world — in particular every bone's local rotation —
unchanged: the distance is zero, below the 0.01 threshold, so no rotation
is ever applied. -/
theorem c3_target_at_effector_noop (c : Controller) (w : World) (name : String)
    (hname : name = "leftHand" ∨ name = "rightHand" ∨ name = "leftFoot" ∨
      name = "rightFoot")
    (htgt : ∀ hum chain t, c.humanoid = some hum →
      chainBones name = some chain → lookupStr c.ikTargets name = some t →
      t = getWorldPosition w (eeIndex (resolvedBones hum chain))) :
    solveIK c w name = w := by
  clear hname
  cases hh : c.humanoid with
  | none => simp only [solveIK, hh]
  | some hum =>
    cases ht : lookupStr c.ikTargets name with
    | none => simp only [solveIK, hh, ht]
    | some t =>
      cases hc : chainBones name with
      | none => simp only [solveIK, hh, ht, hc]
      | some chain =>
        simp only [solveIK, hh, ht, hc]
        split
        · rfl
        · apply ccdLoop_frozen
          rw [ccdDist, htgt hum chain t hh hc ht, Vec3.distanceTo_self]
          exact thresholdPos

/-- Witness for C3: the left-arm chain at rest with the recorded left-hand
target (2,0,0) sitting exactly on the hand; the solve changes nothing. -/
theorem c3_target_at_effector_noop_witness :
    solveIK cArm wArm "leftHand" = wArm := by
  apply c3_target_at_effector_noop cArm wArm "leftHand" (Or.inl rfl)
  intro hum chain t hh hc ht
  have hhum : hum = hArm := by
    have : (some hArm : Option Humanoid) = some hum := hh
    exact (Option.some.injEq _ _ ▸ this).symm
  subst hhum
  have hchain : chain = [.leftUpperArm, .leftLowerArm, .leftHand] := by
    have hc' : chainBones "leftHand" =
        some [HumanBoneName.leftUpperArm, .leftLowerArm, .leftHand] := rfl
    rw [hc'] at hc
    exact (Option.some.inj hc).symm
  subst hchain
  have ht' : lookupStr cArm.ikTargets "leftHand" = some ⟨2, 0, 0⟩ := rfl
  rw [ht'] at ht
  have htv : t = ⟨2, 0, 0⟩ := (Option.some.inj ht).symm
  subst htv
  have hres : resolvedBones hArm [.leftUpperArm, .leftLowerArm, .leftHand] =
      [0, 1, 2] := rfl
  rw [hres]
  have hee : eeIndex [0, 1, 2] = 2 := rfl
  rw [hee]
  simp [getWorldPosition, wArm, worldAffine, Object3D.trs, composeLin,
    Quat.qid, Vec3.ones, Affine.comp, Mat3.mulM, Mat3.mulVec, Vec3.smul,
    Vec3.add, Vec3.zero, Affine.idA, Mat3.idM]
  norm_num

/-! ### Frame lemmas for the solver -/

/-- Frame relation between optional node entries: equal, or both present
and differing at most in the quaternion. -/
def frameRel (a b : Option Object3D) : Prop :=
  a = b ∨ ∃ o o', a = some o ∧ b = some o' ∧ o'.parent = o.parent ∧
    o'.position = o.position ∧ o'.scale = o.scale

theorem frameRel_refl (a : Option Object3D) : frameRel a a := Or.inl rfl

theorem frameRel_trans {a b c : Option Object3D} (h1 : frameRel a b)
    (h2 : frameRel b c) : frameRel a c := by
  rcases h1 with rfl | ⟨o, o', ha, hb, hp1, hq1, hs1⟩
  · exact h2
  · rcases h2 with rfl | ⟨p, p', hb', hc, hp2, hq2, hs2⟩
    · exact Or.inr ⟨o, o', ha, hb, hp1, hq1, hs1⟩
    · rw [hb] at hb'
      have hpp : p = o' := Option.some.inj hb'.symm
      subst hpp
      exact Or.inr ⟨o, p', ha, hc, hp2.trans hp1, hq2.trans hq1, hs2.trans hs1⟩

theorem frameRel_proj {a b : Option Object3D} (h : frameRel a b) :
    b.map Object3D.position = a.map Object3D.position ∧
    b.map Object3D.scale = a.map Object3D.scale ∧
    b.map Object3D.parent = a.map Object3D.parent := by
  rcases h with rfl | ⟨o, o', ha, hb, hp, hq, hs⟩
  · exact ⟨rfl, rfl, rfl⟩
  · subst ha; subst hb
    simp [Option.map_some, hp, hq, hs]

theorem ccdApply_length (bones : List Nat) (target : Vec3) (i : Nat) (w : World) :
    (ccdApply bones target i w).length = w.length := by
  simp only [ccdApply]
  split
  · rfl
  · simp [List.length_set]

theorem ccdApply_frameRel (bones : List Nat) (target : Vec3) (i : Nat)
    (w : World) (j : Nat) :
    frameRel (w[j]?) ((ccdApply bones target i w)[j]?) := by
  simp only [ccdApply]
  split
  · exact frameRel_refl _
  · rename_i o ho
    by_cases hj : bones.getD i 0 = j
    · subst hj
      rw [List.getElem?_set_self', ho]
      exact Or.inr ⟨o, _, rfl, rfl, rfl, rfl, rfl⟩
    · rw [List.getElem?_set_ne hj]
      exact frameRel_refl _

theorem ccdApply_untouched (bones : List Nat) (target : Vec3) (i : Nat)
    (w : World) (j : Nat) (hj : j ≠ bones.getD i 0) :
    (ccdApply bones target i w)[j]? = w[j]? := by
  simp only [ccdApply]
  split
  · rfl
  · rw [List.getElem?_set_ne (Ne.symm hj)]

theorem ccdInnerFrom_length (bones : List Nat) (target : Vec3) (i : Nat)
    (w : World) : (ccdInnerFrom bones target i w).length = w.length := by
  induction i generalizing w with
  | zero =>
    simp only [ccdInnerFrom]
    split
    · rfl
    · exact ccdApply_length bones target 0 w
  | succ n ih =>
    simp only [ccdInnerFrom]
    split
    · rfl
    · exact (ih _).trans (ccdApply_length bones target (n + 1) w)

theorem ccdInnerFrom_frameRel (bones : List Nat) (target : Vec3) (i : Nat)
    (w : World) (j : Nat) :
    frameRel (w[j]?) ((ccdInnerFrom bones target i w)[j]?) := by
  induction i generalizing w with
  | zero =>
    simp only [ccdInnerFrom]
    split
    · exact frameRel_refl _
    · exact ccdApply_frameRel bones target 0 w j
  | succ n ih =>
    simp only [ccdInnerFrom]
    split
    · exact frameRel_refl _
    · exact frameRel_trans (ccdApply_frameRel bones target (n + 1) w j) (ih _)

theorem ccdInnerFrom_untouched (bones : List Nat) (target : Vec3) (j : Nat)
    (hj : ∀ k, k < bones.length - 1 → j ≠ bones.getD k 0) :
    ∀ i, i < bones.length - 1 → ∀ w,
      (ccdInnerFrom bones target i w)[j]? = w[j]? := by
  intro i
  induction i with
  | zero =>
    intro hi w
    simp only [ccdInnerFrom]
    split
    · rfl
    · exact ccdApply_untouched bones target 0 w j (hj 0 hi)
  | succ n ih =>
    intro hi w
    simp only [ccdInnerFrom]
    split
    · rfl
    · rw [ih (by omega) _,
        ccdApply_untouched bones target (n + 1) w j (hj (n + 1) hi)]

theorem ccdLoop_length (bones : List Nat) (target : Vec3) (n : Nat)
    (w : World) : (ccdLoop bones target n w).length = w.length := by
  induction n generalizing w with
  | zero => rfl
  | succ m ih =>
    simp only [ccdLoop]
    exact (ih _).trans (ccdInnerFrom_length bones target _ w)

theorem ccdLoop_frameRel (bones : List Nat) (target : Vec3) (n : Nat)
    (w : World) (j : Nat) :
    frameRel (w[j]?) ((ccdLoop bones target n w)[j]?) := by
  induction n generalizing w with
  | zero => exact frameRel_refl _
  | succ m ih =>
    simp only [ccdLoop]
    exact frameRel_trans (ccdInnerFrom_frameRel bones target _ w j) (ih _)

theorem ccdLoop_untouched (bones : List Nat) (target : Vec3) (j : Nat)
    (hlen : 2 ≤ bones.length)
    (hj : ∀ k, k < bones.length - 1 → j ≠ bones.getD k 0) :
    ∀ n w, (ccdLoop bones target n w)[j]? = w[j]? := by
  intro n
  induction n with
  | zero => intro w; rfl
  | succ m ih =>
    intro w
    simp only [ccdLoop]
    rw [ih _, ccdIteration,
      ccdInnerFrom_untouched bones target j hj _ (by omega) w]

/-! ### C8 -/

/-- C8: `solveIK` only ever rewrites the local quaternions of the resolved
chain bones before the end effector.  Node count, every node's position,
scale and parent link are preserved, and any node index different from
every chain index before the end effector — the end-effector node itself,
and every node outside the chain — is left completely unchanged.  (The
embedding of `solveIK` returns only a new node list: the controller state,
including the recorded IK targets, is not touched by the source method.) -/
theorem c8_solve_frame (c : Controller) (w : World) (name : String) :
    ((solveIK c w name).length = w.length) ∧
    (∀ j : Nat, ((solveIK c w name)[j]?).map Object3D.position =
      (w[j]?).map Object3D.position) ∧
    (∀ j : Nat, ((solveIK c w name)[j]?).map Object3D.scale =
      (w[j]?).map Object3D.scale) ∧
    (∀ j : Nat, ((solveIK c w name)[j]?).map Object3D.parent =
      (w[j]?).map Object3D.parent) ∧
    (∀ hum chain, c.humanoid = some hum → chainBones name = some chain →
      ∀ j : Nat, (∀ k, k < (resolvedBones hum chain).length - 1 →
        j ≠ (resolvedBones hum chain).getD k 0) →
      (solveIK c w name)[j]? = w[j]?) := by
  cases hh : c.humanoid with
  | none =>
    simp only [solveIK, hh]
    simp
  | some hum =>
    cases ht : lookupStr c.ikTargets name with
    | none =>
      simp only [solveIK, hh, ht]
      simp
    | some t =>
      cases hc : chainBones name with
      | none =>
        simp only [solveIK, hh, ht, hc]
        simp
      | some chain =>
        simp only [solveIK, hh, ht, hc]
        split
        · simp
        · rename_i hlen
          refine ⟨ccdLoop_length _ _ _ _,
            fun j => (frameRel_proj (ccdLoop_frameRel _ _ _ _ j)).1,
            fun j => (frameRel_proj (ccdLoop_frameRel _ _ _ _ j)).2.1,
            fun j => (frameRel_proj (ccdLoop_frameRel _ _ _ _ j)).2.2,
            fun hum' chain' hhum hchain j hj => ?_⟩
          have hhum2 : hum' = hum := (Option.some.inj hhum).symm
          have hchain2 : chain' = chain := (Option.some.inj hchain).symm
          subst hhum2; subst hchain2
          exact ccdLoop_untouched _ t j (by omega) hj iterations w

/-- Witness for C8: in the rest left-arm chain, the end-effector node
(index 2, excluded from every updated chain position) is untouched by a
full solve, and every node's position is preserved. -/
theorem c8_solve_frame_witness :
    (solveIK cArm wArm "leftHand")[2]? = wArm[2]? ∧
    (∀ j : Nat, ((solveIK cArm wArm "leftHand")[j]?).map Object3D.position =
      (wArm[j]?).map Object3D.position) := by
  have h := c8_solve_frame cArm wArm "leftHand"
  refine ⟨h.2.2.2.2 hArm [.leftUpperArm, .leftLowerArm, .leftHand] rfl rfl 2
    ?_, h.2.1⟩
  intro k hk
  have hres : resolvedBones hArm [.leftUpperArm, .leftLowerArm, .leftHand] =
      [0, 1, 2] := rfl
  rw [hres] at hk ⊢
  have hk2 : k < 2 := by simpa using hk
  interval_cases k
  · decide
  · decide

/-! ### C10 -/

/-- C10: `solveIK` is a complete no-op when the end-effector name has no
chain, when no target is recorded for it, or when fewer than two chain
bones resolve on the skeleton; and when exactly the middle bone of a
three-bone chain is absent it runs the CCD loop on the compacted two-bone
chain of the remaining bones. -/
theorem c10_solve_guards (c : Controller) (w : World) (name : String) :
    (chainBones name = none → solveIK c w name = w) ∧
    (lookupStr c.ikTargets name = none → solveIK c w name = w) ∧
    (∀ hum chain, c.humanoid = some hum → chainBones name = some chain →
      (resolvedBones hum chain).length < 2 → solveIK c w name = w) ∧
    (∀ hum t n1 n2 n3 a b, c.humanoid = some hum →
      chainBones name = some [n1, n2, n3] →
      lookupStr c.ikTargets name = some t →
      hum n1 = some a → hum n2 = none → hum n3 = some b →
      solveIK c w name = ccdLoop [a, b] t iterations w) := by
  refine ⟨?_, ?_, ?_, ?_⟩
  · intro hc
    cases hh : c.humanoid with
    | none => simp only [solveIK, hh]
    | some hum =>
      cases ht : lookupStr c.ikTargets name with
      | none => simp only [solveIK, hh, ht]
      | some t => simp only [solveIK, hh, ht, hc]
  · intro ht
    cases hh : c.humanoid with
    | none => simp only [solveIK, hh]
    | some hum => simp only [solveIK, hh, ht]
  · intro hum chain hhum hchain hlen
    cases ht : lookupStr c.ikTargets name with
    | none => simp only [solveIK, hhum, ht]
    | some t => simp only [solveIK, hhum, ht, hchain, if_pos hlen]
  · intro hum t n1 n2 n3 a b hhum hchain ht h1 h2 h3
    have hres : resolvedBones hum [n1, n2, n3] = [a, b] := by
      simp [resolvedBones, List.filterMap, h1, h2, h3]
    simp only [solveIK, hhum, ht, hchain, hres]
    norm_num

/-- Witness for C10: a name outside the chain table is a no-op; and with
the lower arm absent, the left-hand solve runs on the compacted
upper-arm/hand chain. -/
theorem c10_solve_guards_witness :
    solveIK cArm wArm "spine" = wArm ∧
    (solveIK ⟨some hArmGap, Mode.ik, [], none, [], none,
        [("leftHand", ⟨2, 0, 0⟩)], false, false, []⟩ wArm "leftHand" =
      ccdLoop [0, 2] ⟨2, 0, 0⟩ iterations wArm) := by
  constructor
  · exact (c10_solve_guards cArm wArm "spine").1 rfl
  · exact (c10_solve_guards _ wArm "leftHand").2.2.2 hArmGap ⟨2, 0, 0⟩
      .leftUpperArm .leftLowerArm .leftHand 0 2 rfl rfl rfl rfl rfl rfl

/-! ### Controller lemmas -/

theorem mapSet_mem {m : List (HumanBoneName × MeshObj)} {k : HumanBoneName}
    {v : MeshObj} : ∀ p ∈ mapSet m k v, p ∈ m ∨ p = (k, v) := by
  induction m with
  | nil =>
    intro p hp
    simp only [mapSet, List.mem_singleton] at hp
    exact Or.inr hp
  | cons hd tl ih =>
    intro p hp
    rcases hd with ⟨k', v'⟩
    simp only [mapSet] at hp
    split at hp
    · rcases List.mem_cons.1 hp with rfl | hmem
      · exact Or.inr rfl
      · exact Or.inl (List.mem_cons_of_mem _ hmem)
    · rcases List.mem_cons.1 hp with rfl | hmem
      · exact Or.inl (List.mem_cons_self _ _)
      · rcases ih p hmem with h | h
        · exact Or.inl (List.mem_cons_of_mem _ h)
        · exact Or.inr h

theorem setupIKHelpers_all (h : Humanoid) (w : World)
    (P : HumanBoneName × MeshObj → Prop)
    (hP : ∀ bn color i, P (bn, ikMesh bn color (getWorldPosition w i))) :
    ∀ l acc, (∀ p ∈ acc.1, P p) →
      ∀ p ∈ (setupIKHelpers h w acc l).1, P p := by
  intro l
  induction l with
  | nil =>
    intro acc hacc p hp
    exact hacc p hp
  | cons hd tl ih =>
    intro acc hacc p hp
    rcases hd with ⟨bn, color⟩
    simp only [setupIKHelpers] at hp
    cases hh : h bn with
    | none =>
      rw [hh] at hp
      exact ih acc hacc p hp
    | some i =>
      rw [hh] at hp
      refine ih _ ?_ p hp
      intro q hq
      rcases mapSet_mem q hq with hmem | rfl
      · exact hacc q hmem
      · exact hP bn color i

theorem setMode_humanoid (c : Controller) (w : World) (m : Mode) :
    (setMode c w m).humanoid = c.humanoid := by
  cases m with
  | off => rfl
  | fk =>
    simp only [setMode, setupFKMode]
    cases hh : c.humanoid <;> simp [cleanupC, hh]
  | ik =>
    simp only [setMode, setupIKMode]
    cases hh : c.humanoid <;> simp [cleanupC, hh]

theorem cleanupC_scene_no_root (c : Controller)
    (hwf : c.scene.count SceneObj.tcRoot ≤
      (match c.transformControl with | none => 0 | some _ => 1)) :
    SceneObj.tcRoot ∉ (cleanupC c).scene := by
  cases htc : c.transformControl with
  | none =>
    simp only [htc] at hwf
    simp only [cleanupC, htc]
    exact List.count_eq_zero.1 (Nat.le_zero.1 hwf)
  | some tc =>
    simp only [htc] at hwf
    simp only [cleanupC, htc]
    apply List.count_eq_zero.1
    have := List.count_erase_self SceneObj.tcRoot c.scene
    omega

/-- `setMode` leaves the controller's state determined by the humanoid and
the post-cleanup scene alone: two controllers agreeing on those produce the
same state for any target mode. -/
theorem setMode_determined (c c' : Controller) (w : World) (m : Mode)
    (h1 : c.humanoid = c'.humanoid)
    (h2 : (cleanupC c).scene = (cleanupC c').scene) :
    setMode c w m = setMode c' w m := by
  have hbase : ({ cleanupC c with mode := m } : Controller) =
      { cleanupC c' with mode := m } := by
    simp only [cleanupC] at h2 ⊢
    rw [h1, h2]
  cases m with
  | off => simpa only [setMode] using hbase
  | fk => simp only [setMode, hbase]
  | ik => simp only [setMode, hbase]

theorem setMode_cleanup_scene (c : Controller) (w : World) (m : Mode)
    (hwf : c.scene.count SceneObj.tcRoot ≤
      (match c.transformControl with | none => 0 | some _ => 1)) :
    (cleanupC (setMode c w m)).scene = (cleanupC c).scene := by
  have hno : SceneObj.tcRoot ∉ (cleanupC c).scene := cleanupC_scene_no_root c hwf
  cases m with
  | off => rfl
  | fk =>
    cases hh : c.humanoid with
    | none => simp [setMode, setupFKMode, cleanupC, hh]
    | some hum =>
      simp only [setMode, setupFKMode, cleanupC, hh]
      rw [List.erase_append_right _ (by simpa [cleanupC] using hno)]
      simp
  | ik =>
    cases hh : c.humanoid with
    | none => simp [setMode, setupIKMode, cleanupC, hh]
    | some hum =>
      simp only [setMode, setupIKMode, cleanupC, hh]
      rw [List.erase_append_right _ (by simpa [cleanupC] using hno)]
      simp

/-! ### C5 -/

/-- C5: `setMode` tears everything down before building the new mode.
After `setMode("fk")` then `setMode("ik")` every marker left in the
helpers map is an IK end-effector marker (its `userData.boneName` is
unset and its `userData.ikBoneName` names its own bone) and the FK click
listener is gone; and `setMode("off")` twice is the same single teardown,
leaving no helper, overlay or group child at all. -/
theorem c5_teardown_transition (c : Controller) (w : World) :
    (∀ p ∈ (setMode (setMode c w Mode.fk) w Mode.ik).boneHelpers,
      p.2.userBoneName = none ∧ p.2.userIkBoneName = some p.1) ∧
    ((setMode (setMode c w Mode.fk) w Mode.ik).fkClickAttached = false) ∧
    (setMode (setMode c w Mode.off) w Mode.off = setMode c w Mode.off) ∧
    ((setMode c w Mode.off).boneHelpers = []) ∧
    ((setMode c w Mode.off).helperChildren = []) ∧
    ((setMode c w Mode.off).boneLines = none) := by
  refine ⟨?_, ?_, ?_, rfl, rfl, rfl⟩
  · generalize setMode c w Mode.fk = cfk
    cases hh : cfk.humanoid with
    | none =>
      simp only [setMode, setupIKMode, cleanupC, hh]
      simp
    | some h =>
      simp only [setMode, setupIKMode, cleanupC, hh]
      exact setupIKHelpers_all h w _ (fun bn color i => ⟨rfl, rfl⟩)
        ikBoneList ([], []) (by simp)
  · generalize setMode c w Mode.fk = cfk
    cases hh : cfk.humanoid with
    | none => simp [setMode, setupIKMode, cleanupC, hh]
    | some h => simp [setMode, setupIKMode, cleanupC, hh]
  · rfl

/-- Witness for C5: with the left-arm humanoid, after the fk→ik
transition the FK listener is gone and the surviving left-hand marker is
an IK marker with no `userData.boneName`. -/
theorem c5_teardown_transition_witness :
    ((setMode (setMode cArm wArm Mode.fk) wArm Mode.ik).fkClickAttached =
      false) ∧
    ((HumanBoneName.leftHand,
        ikMesh .leftHand 0xff0000 (getWorldPosition wArm 2)).2.userBoneName =
      none) := by
  have h := c5_teardown_transition cArm wArm
  refine ⟨h.2.1, (h.1
    (HumanBoneName.leftHand,
      ikMesh .leftHand 0xff0000 (getWorldPosition wArm 2)) ?_).1⟩
  simp [setMode, setupIKMode, setupFKMode, cleanupC, setupIKHelpers,
    setupFKHelpers, ikBoneList, fkBoneNames, hArm, mapSet, cArm]

/-! ### C6 -/

/-- C6 counterexample: `setMode(m)` with the mode already `m` is not a
state no-op.  A controller in IK mode holding a recorded left-hand target
loses that target when `setMode("ik")` is called again: `setMode`
unconditionally runs `cleanup()`, which clears `ikTargets` (and likewise
resets selection colors and detaches the widget). -/
theorem c6_counterexample :
    cIkTargets.mode = Mode.ik ∧
    (setMode cIkTargets [] Mode.ik).ikTargets ≠ cIkTargets.ikTargets := by
  refine ⟨rfl, ?_⟩
  simp [setMode, setupIKMode, cleanupC, cIkTargets]

/-- C6 amended: a repeated `setMode(m)` is not a no-op on the state, but it
is idempotent as a state transformer: running `setMode(m)` twice from any
well-formed state is the same as running it once (the second call tears
down exactly what the first built and rebuilds it identically). -/
theorem c6_amended_idempotent (c : Controller) (w : World) (m : Mode)
    (hwf : ControllerWF c) :
    setMode (setMode c w m) w m = setMode c w m :=
  setMode_determined _ _ w m (setMode_humanoid c w m)
    (setMode_cleanup_scene c w m hwf.1)

/-- Witness for C6's amended claim at a concrete controller. -/
theorem c6_amended_idempotent_witness :
    setMode (setMode cArm wArm Mode.ik) wArm Mode.ik =
      setMode cArm wArm Mode.ik :=
  c6_amended_idempotent cArm wArm Mode.ik ⟨by decide, by decide⟩

/-! ### C9 -/

/-- C9: `cleanup` and `dispose` are idempotent — safe to repeat in any
state, including a freshly constructed controller — and after `dispose`
the scene holds neither the helper group nor a transform-widget root,
and no helper, overlay, or widget survives. -/
theorem c9_dispose_safe (c : Controller) (hwf : ControllerWF c) :
    cleanupC (cleanupC c) = cleanupC c ∧
    dispose (dispose c) = dispose c ∧
    SceneObj.helperGroup ∉ (dispose c).scene ∧
    SceneObj.tcRoot ∉ (dispose c).scene ∧
    (dispose c).boneHelpers = [] ∧
    (dispose c).helperChildren = [] ∧
    (dispose c).boneLines = none ∧
    (dispose c).transformControl = none := by
  have hroot : SceneObj.tcRoot ∉ (cleanupC c).scene :=
    cleanupC_scene_no_root c hwf.1
  have hhg1 : (cleanupC c).scene.count SceneObj.helperGroup ≤ 1 := by
    cases htc : c.transformControl with
    | none => simpa [cleanupC, htc] using hwf.2
    | some tc =>
      simp only [cleanupC, htc]
      rw [List.count_erase_of_ne (by simp)]
      exact hwf.2
  have hhg : SceneObj.helperGroup ∉ (dispose c).scene := by
    simp only [dispose]
    apply List.count_eq_zero.1
    have := List.count_erase_self SceneObj.helperGroup (cleanupC c).scene
    omega
  have hrootd : SceneObj.tcRoot ∉ (dispose c).scene := by
    simp only [dispose]
    intro hmem
    exact hroot ((List.mem_erase_of_ne (by simp)).1 hmem)
  refine ⟨rfl, ?_, hhg, hrootd, rfl, rfl, rfl, rfl⟩
  have : (dispose c).scene.erase SceneObj.helperGroup = (dispose c).scene :=
    List.erase_of_not_mem hhg
  simp only [dispose, cleanupC] at this ⊢
  rw [this]

/-- Witness for C9 on a freshly constructed controller. -/
theorem c9_dispose_safe_witness :
    (dispose (dispose (mkController (some hArm) [SceneObj.other 0])) =
      dispose (mkController (some hArm) [SceneObj.other 0])) ∧
    SceneObj.helperGroup ∉
      (dispose (mkController (some hArm) [SceneObj.other 0])).scene := by
  have h := c9_dispose_safe (mkController (some hArm) [SceneObj.other 0])
    ⟨by decide, by decide⟩
  exact ⟨h.2.1, h.2.2.1⟩

/-! ### C7 -/

theorem mapSet_of_not_mem (m : List (HumanBoneName × MeshObj))
    (k : HumanBoneName) (v : MeshObj) (hk : ∀ p ∈ m, p.1 ≠ k) :
    mapSet m k v = m ++ [(k, v)] := by
  induction m with
  | nil => rfl
  | cons hd tl ih =>
    rcases hd with ⟨k', v'⟩
    simp only [mapSet]
    rw [if_neg (hk (k', v') (List.mem_cons_self _ _))]
    rw [ih (fun p hp => hk p (List.mem_cons_of_mem _ hp))]
    rfl

theorem setupFKHelpers_keys (h : Humanoid) (w : World) :
    ∀ l (acc : List (HumanBoneName × MeshObj) × List HelperChild),
      l.Nodup → (∀ bn ∈ l, ∀ p ∈ acc.1, p.1 ≠ bn) →
      ((setupFKHelpers h w acc l).1).map Prod.fst =
        acc.1.map Prod.fst ++ l.filter (fun bn => (h bn).isSome) := by
  intro l
  induction l with
  | nil =>
    intro acc _ _
    simp [setupFKHelpers]
  | cons bn tl ih =>
    intro acc hnd hdisj
    cases hh : h bn with
    | none =>
      simp only [setupFKHelpers, hh]
      rw [ih acc (List.nodup_cons.1 hnd).2
        (fun b hb p hp => hdisj b (List.mem_cons_of_mem _ hb) p hp)]
      simp [List.filter_cons, hh]
    | some i =>
      simp only [setupFKHelpers, hh]
      have hm : mapSet acc.1 bn (fkMesh bn (getWorldPosition w i)) =
          acc.1 ++ [(bn, fkMesh bn (getWorldPosition w i))] :=
        mapSet_of_not_mem _ _ _
          (fun p hp => hdisj bn (List.mem_cons_self _ _) p hp)
      have hdisj2 : ∀ b ∈ tl,
          ∀ p ∈ acc.1 ++ [(bn, fkMesh bn (getWorldPosition w i))],
          p.1 ≠ b := by
        intro b hb p hp
        rcases List.mem_append.1 hp with hmem | hsing
        · exact hdisj b (List.mem_cons_of_mem _ hb) p hmem
        · rw [List.mem_singleton.1 hsing]
          intro hEq
          cases hEq
          exact (List.nodup_cons.1 hnd).1 hb
      rw [hm, ih _ (List.nodup_cons.1 hnd).2 hdisj2]
      simp [List.filter_cons, hh]

theorem setupIKHelpers_keys (h : Humanoid) (w : World) :
    ∀ l (acc : List (HumanBoneName × MeshObj) × List HelperChild),
      (l.map Prod.fst).Nodup → (∀ pc ∈ l, ∀ p ∈ acc.1, p.1 ≠ pc.1) →
      ((setupIKHelpers h w acc l).1).map Prod.fst =
        acc.1.map Prod.fst ++
          (l.filter (fun pc => (h pc.1).isSome)).map Prod.fst := by
  intro l
  induction l with
  | nil =>
    intro acc _ _
    simp [setupIKHelpers]
  | cons pc tl ih =>
    intro acc hnd hdisj
    rcases pc with ⟨bn, color⟩
    simp only [List.map_cons, List.nodup_cons] at hnd
    cases hh : h bn with
    | none =>
      simp only [setupIKHelpers, hh]
      rw [ih acc hnd.2
        (fun b hb p hp => hdisj b (List.mem_cons_of_mem _ hb) p hp)]
      simp [List.filter_cons, hh]
    | some i =>
      simp only [setupIKHelpers, hh]
      have hm : mapSet acc.1 bn (ikMesh bn color (getWorldPosition w i)) =
          acc.1 ++ [(bn, ikMesh bn color (getWorldPosition w i))] :=
        mapSet_of_not_mem _ _ _
          (fun p hp => hdisj (bn, color) (List.mem_cons_self _ _) p hp)
      have hdisj2 : ∀ pc2 ∈ tl,
          ∀ p ∈ acc.1 ++ [(bn, ikMesh bn color (getWorldPosition w i))],
          p.1 ≠ pc2.1 := by
        intro pc2 hb p hp
        rcases List.mem_append.1 hp with hmem | hsing
        · exact hdisj pc2 (List.mem_cons_of_mem _ hb) p hmem
        · rw [List.mem_singleton.1 hsing]
          intro hEq
          apply hnd.1
          rw [show bn = pc2.1 from hEq]
          exact List.mem_map_of_mem Prod.fst hb
      rw [hm, ih _ hnd.2 hdisj2]
      simp [List.filter_cons, hh]

theorem linesPositions_length (h : Humanoid) (w : World) :
    (linesPositions h w).length =
      6 * connections.countP
        (fun pc => (h pc.1).isSome && (h pc.2).isSome) := by
  unfold linesPositions
  generalize connections = l
  induction l with
  | nil => simp
  | cons pc tl ih =>
    cases h1 : h pc.1 <;> cases h2 : h pc.2 <;>
      simp [List.filterMap_cons, List.countP_cons, h1, h2, ih] <;> omega

theorem filterMap_erase_none (h : Humanoid) (bn : HumanBoneName)
    (hn : h bn = none) :
    ∀ chain : List HumanBoneName,
      chain.filterMap h = (chain.erase bn).filterMap h := by
  intro chain
  induction chain with
  | nil => rfl
  | cons hd tl ih =>
    by_cases hEq : hd = bn
    · subst hEq
      rw [List.erase_cons_head]
      simp [List.filterMap_cons, hn]
    · rw [List.erase_cons_tail (by simpa using hEq)]
      simp only [List.filterMap_cons]
      cases h hd <;> rw [ih]

/-- C7: every operation skips absent bones and never fails.  With any
humanoid exposing any subset of bones: FK setup creates markers exactly
for the present bones of its twenty-name list; IK setup creates markers
exactly for the present end effectors; the skeleton overlay holds exactly
six coordinates per connection whose two bones are both present;
`update` leaves markers of absent bones untouched; and the solver's chain
resolution is unchanged by deleting an absent bone from the chain (absent
bones are simply skipped).  All operations are total functions of the
embedding — no failure path exists. -/
theorem c7_absent_bones_skipped (c : Controller) (w : World) (h : Humanoid)
    (hh : c.humanoid = some h) :
    ((setMode c w Mode.fk).boneHelpers.map Prod.fst =
      fkBoneNames.filter (fun bn => (h bn).isSome)) ∧
    ((setMode c w Mode.ik).boneHelpers.map Prod.fst =
      (ikBoneList.filter (fun pc => (h pc.1).isSome)).map Prod.fst) ∧
    ((setMode c w Mode.fk).boneLines = some ⟨linesPositions h w⟩) ∧
    ((linesPositions h w).length =
      6 * connections.countP
        (fun pc => (h pc.1).isSome && (h pc.2).isSome)) ∧
    (∀ p ∈ c.boneHelpers, h p.1 = none → p ∈ (updateC c w).boneHelpers) ∧
    (∀ name chain bn, chainBones name = some chain → bn ∈ chain →
      h bn = none →
      resolvedBones h chain = resolvedBones h (chain.erase bn)) := by
  refine ⟨?_, ?_, ?_, linesPositions_length h w, ?_, ?_⟩
  · simp only [setMode, setupFKMode, cleanupC, hh]
    rw [setupFKHelpers_keys h w fkBoneNames ([], []) (by decide) (by simp)]
    simp
  · simp only [setMode, setupIKMode, cleanupC, hh]
    rw [setupIKHelpers_keys h w ikBoneList ([], []) (by decide) (by simp)]
    simp
  · simp only [setMode, setupFKMode, cleanupC, hh]
  · intro p hp hpn
    by_cases hm : c.mode = Mode.off
    · simp only [updateC, if_pos hm]
      exact hp
    · simp only [updateC, if_neg hm]
      refine List.mem_map.2 ⟨p, hp, ?_⟩
      simp [hh, hpn]
  · intro name chain bn hchain hmem hnone
    exact filterMap_erase_none h bn hnone chain

/-- Witness for C7: with the left-arm-only humanoid, FK setup creates
exactly the three left-arm markers; and with the lower arm absent, the
left-hand chain resolves the same with the absent bone deleted. -/
theorem c7_absent_bones_skipped_witness :
    ((setMode cArm wArm Mode.fk).boneHelpers.map Prod.fst =
      fkBoneNames.filter (fun bn => (hArm bn).isSome)) ∧
    (resolvedBones hArmGap [.leftUpperArm, .leftLowerArm, .leftHand] =
      resolvedBones hArmGap
        ([HumanBoneName.leftUpperArm, .leftLowerArm,
          .leftHand].erase .leftLowerArm)) := by
  have h1 := c7_absent_bones_skipped cArm wArm hArm rfl
  have h2 := c7_absent_bones_skipped
    ⟨some hArmGap, Mode.off, [], none, [], none, [], false, false, []⟩
    wArm hArmGap rfl
  exact ⟨h1.1, h2.2.2.2.2.2 "leftHand" _ HumanBoneName.leftLowerArm rfl
    (by decide) rfl⟩

/-! ### C1: algebraic machinery -/

theorem Vec3.lengthSq_nonneg (v : Vec3) : 0 ≤ Vec3.lengthSq v := by
  simp only [Vec3.lengthSq]
  nlinarith [mul_self_nonneg v.x, mul_self_nonneg v.y, mul_self_nonneg v.z]

theorem Quat.lengthSqQ_nonneg (q : Quat) : 0 ≤ Quat.lengthSq q := by
  simp only [Quat.lengthSq]
  nlinarith [mul_self_nonneg q.x, mul_self_nonneg q.y, mul_self_nonneg q.z,
    mul_self_nonneg q.w]

theorem Vec3.normalize_of_ne (v : Vec3) (hv : Vec3.lengthSq v ≠ 0) :
    Vec3.normalize v =
      ⟨v.x / Real.sqrt (Vec3.lengthSq v), v.y / Real.sqrt (Vec3.lengthSq v),
       v.z / Real.sqrt (Vec3.lengthSq v)⟩ := by
  have hpos : 0 < Vec3.lengthSq v :=
    lt_of_le_of_ne (Vec3.lengthSq_nonneg v) (Ne.symm hv)
  have hsne : Real.sqrt (Vec3.lengthSq v) ≠ 0 := by
    rw [Real.sqrt_ne_zero']
    exact hpos
  simp only [Vec3.normalize, Vec3.length]
  rw [if_neg hsne]

theorem Vec3.lengthSq_normalize (v : Vec3) (hv : Vec3.lengthSq v ≠ 0) :
    Vec3.lengthSq (Vec3.normalize v) = 1 := by
  have hpos : 0 < Vec3.lengthSq v :=
    lt_of_le_of_ne (Vec3.lengthSq_nonneg v) (Ne.symm hv)
  have hs : Real.sqrt (Vec3.lengthSq v) * Real.sqrt (Vec3.lengthSq v) =
      Vec3.lengthSq v := Real.mul_self_sqrt hpos.le
  have hsne : Real.sqrt (Vec3.lengthSq v) ≠ 0 := by
    rw [Real.sqrt_ne_zero']
    exact hpos
  rw [Vec3.normalize_of_ne v hv]
  obtain ⟨vx, vy, vz⟩ := v
  simp only [Vec3.lengthSq] at hs hv ⊢
  rw [div_mul_div_comm, div_mul_div_comm, div_mul_div_comm, hs,
    div_add_div_same, div_add_div_same, div_self hv]

theorem Quat.normalizeQ_eq (q : Quat) (hq : 0 < Quat.lengthSq q) :
    Quat.normalizeQ q =
      ⟨q.x / Real.sqrt (Quat.lengthSq q), q.y / Real.sqrt (Quat.lengthSq q),
       q.z / Real.sqrt (Quat.lengthSq q),
       q.w / Real.sqrt (Quat.lengthSq q)⟩ := by
  have hsne : Real.sqrt (Quat.lengthSq q) ≠ 0 := by
    rw [Real.sqrt_ne_zero']
    exact hq
  simp only [Quat.normalizeQ, Quat.length]
  rw [if_neg hsne]

theorem Mat3.mulVec_smul (m : Mat3) (c : ℝ) (v : Vec3) :
    Mat3.mulVec m (Vec3.smul c v) = Vec3.smul c (Mat3.mulVec m v) := by
  obtain ⟨⟨a, b, d⟩, ⟨e, f, g⟩, ⟨h, i, j⟩⟩ := m
  obtain ⟨vx, vy, vz⟩ := v
  simp only [Mat3.mulVec, Vec3.smul, Vec3.add, Vec3.mk.injEq]
  refine ⟨by ring, by ring, by ring⟩

theorem Vec3.smul_length_normalize (v : Vec3) (hv : Vec3.lengthSq v ≠ 0) :
    Vec3.smul (Vec3.length v) (Vec3.normalize v) = v := by
  have hpos : 0 < Vec3.lengthSq v :=
    lt_of_le_of_ne (Vec3.lengthSq_nonneg v) (Ne.symm hv)
  have hsne : Real.sqrt (Vec3.lengthSq v) ≠ 0 := by
    rw [Real.sqrt_ne_zero']
    exact hpos
  rw [Vec3.normalize_of_ne v hv]
  obtain ⟨vx, vy, vz⟩ := v
  simp only [Vec3.length, Vec3.smul, Vec3.mk.injEq]
  refine ⟨?_, ?_, ?_⟩ <;> field_simp

theorem Vec3.normalize_smul_unit (c : ℝ) (hc : 0 < c) (w : Vec3)
    (hw : Vec3.lengthSq w = 1) : Vec3.normalize (Vec3.smul c w) = w := by
  have h1 : Vec3.lengthSq (Vec3.smul c w) = c ^ 2 := by
    obtain ⟨wx, wy, wz⟩ := w
    simp only [Vec3.lengthSq, Vec3.smul] at hw ⊢
    linear_combination (c ^ 2) * hw
  have h2 : Vec3.length (Vec3.smul c w) = c := by
    rw [Vec3.length, h1, Real.sqrt_sq hc.le]
  simp only [Vec3.normalize, h2]
  rw [if_neg hc.ne']
  obtain ⟨wx, wy, wz⟩ := w
  simp only [Vec3.smul, Vec3.mk.injEq]
  refine ⟨?_, ?_, ?_⟩ <;> field_simp

theorem composeLin_div_mulVec (qx qy qz qw s : ℝ) (hs : s ≠ 0) (u : Vec3) :
    Mat3.mulVec (composeLin ⟨qx / s, qy / s, qz / s, qw / s⟩ Vec3.ones) u =
      ⟨((s * s - 2 * (qy * qy + qz * qz)) * u.x +
          (2 * (qx * qy) - 2 * (qw * qz)) * u.y +
          (2 * (qx * qz) + 2 * (qw * qy)) * u.z) / (s * s),
       ((2 * (qx * qy) + 2 * (qw * qz)) * u.x +
          (s * s - 2 * (qx * qx + qz * qz)) * u.y +
          (2 * (qy * qz) - 2 * (qw * qx)) * u.z) / (s * s),
       ((2 * (qx * qz) - 2 * (qw * qy)) * u.x +
          (2 * (qy * qz) + 2 * (qw * qx)) * u.y +
          (s * s - 2 * (qx * qx + qy * qy)) * u.z) / (s * s)⟩ := by
  obtain ⟨ux, uy, uz⟩ := u
  simp only [composeLin, Mat3.mulVec, Vec3.smul, Vec3.add, Vec3.ones,
    Vec3.mk.injEq]
  refine ⟨?_, ?_, ?_⟩ <;> field_simp <;> ring

/-- The minimal-arc property of `setFromUnitVectors` on genuinely unit
vectors away from the antiparallel case: the rotation matrix of the
normalized quaternion maps the source unit vector exactly onto the target
unit vector. -/
theorem minimalArc_maps (u w : Vec3) (hu : Vec3.lengthSq u = 1)
    (hw : Vec3.lengthSq w = 1) (hr : 0 < Vec3.dot u w + 1) :
    Mat3.mulVec (composeLin (Quat.normalizeQ
      ⟨u.y * w.z - u.z * w.y, u.z * w.x - u.x * w.z,
       u.x * w.y - u.y * w.x, Vec3.dot u w + 1⟩) Vec3.ones) u = w := by
  obtain ⟨ux, uy, uz⟩ := u
  obtain ⟨wx, wy, wz⟩ := w
  simp only [Vec3.lengthSq] at hu hw
  simp only [Vec3.dot] at hr ⊢
  have hNval : Quat.lengthSq
      ⟨uy * wz - uz * wy, uz * wx - ux * wz, ux * wy - uy * wx,
        ux * wx + uy * wy + uz * wz + 1⟩ =
      2 * (ux * wx + uy * wy + uz * wz + 1) := by
    simp only [Quat.lengthSq]
    linear_combination (wx * wx + wy * wy + wz * wz) * hu + hw
  have hpos : 0 < 2 * (ux * wx + uy * wy + uz * wz + 1) := by linarith
  have hQpos : 0 < Quat.lengthSq ⟨uy * wz - uz * wy, uz * wx - ux * wz,
      ux * wy - uy * wx, ux * wx + uy * wy + uz * wz + 1⟩ := by
    rw [hNval]
    exact hpos
  rw [Quat.normalizeQ_eq _ hQpos]
  have hsne : Real.sqrt (Quat.lengthSq ⟨uy * wz - uz * wy, uz * wx - ux * wz,
      ux * wy - uy * wx, ux * wx + uy * wy + uz * wz + 1⟩) ≠ 0 := by
    rw [Real.sqrt_ne_zero']
    exact hQpos
  rw [composeLin_div_mulVec _ _ _ _ _ hsne ⟨ux, uy, uz⟩]
  have hss : Real.sqrt (Quat.lengthSq ⟨uy * wz - uz * wy, uz * wx - ux * wz,
        ux * wy - uy * wx, ux * wx + uy * wy + uz * wz + 1⟩) *
      Real.sqrt (Quat.lengthSq ⟨uy * wz - uz * wy, uz * wx - ux * wz,
        ux * wy - uy * wx, ux * wx + uy * wy + uz * wz + 1⟩) =
      2 * (ux * wx + uy * wy + uz * wz + 1) := by
    rw [Real.mul_self_sqrt (Quat.lengthSqQ_nonneg _), hNval]
  rw [hss]
  have hne : (2 : ℝ) * (ux * wx + uy * wy + uz * wz + 1) ≠ 0 := ne_of_gt hpos
  simp only [Vec3.mk.injEq]
  refine ⟨?_, ?_, ?_⟩
  · rw [div_eq_iff hne]
    linear_combination
      (-(2 * (wx * wx + wy * wy + wz * wz)) * ux +
        2 * (ux * wx + uy * wy + uz * wz + 1) * wx) * hu +
      (-(2 * ux)) * hw
  · rw [div_eq_iff hne]
    linear_combination
      (-(2 * (wx * wx + wy * wy + wz * wz)) * uy +
        2 * (ux * wx + uy * wy + uz * wz + 1) * wy) * hu +
      (-(2 * uy)) * hw
  · rw [div_eq_iff hne]
    linear_combination
      (-(2 * (wx * wx + wy * wy + wz * wz)) * uz +
        2 * (ux * wx + uy * wy + uz * wz + 1) * wz) * hu +
      (-(2 * uz)) * hw

theorem Quat.qid_mul (b : Quat) : Quat.mul Quat.qid b = b := by
  obtain ⟨bx, by', bz, bw⟩ := b
  simp only [Quat.mul, Quat.qid, Quat.mk.injEq]
  refine ⟨by ring, by ring, by ring, by ring⟩

theorem Vec3.sub_add_cancel_right (v p : Vec3) :
    Vec3.sub (Vec3.add v p) p = v := by
  obtain ⟨vx, vy, vz⟩ := v
  obtain ⟨px, py, pz⟩ := p
  simp only [Vec3.sub, Vec3.add, Vec3.mk.injEq]
  refine ⟨by ring, by ring, by ring⟩

theorem mulVec_eq_smul_normalize (m : Mat3) (v : Vec3)
    (hv : Vec3.lengthSq v ≠ 0) :
    Mat3.mulVec m v =
      Vec3.smul (Vec3.length v) (Mat3.mulVec m (Vec3.normalize v)) := by
  rw [← Mat3.mulVec_smul, Vec3.smul_length_normalize v hv]

theorem rootWorldPos (p : Vec3) (q : Quat) (s : Vec3) (n1 : Object3D) :
    getWorldPosition [⟨none, p, q, s⟩, n1] 0 = p := by
  simp [getWorldPosition, worldAffine, Object3D.trs]

theorem childWorldPos (p : Vec3) (q : Quat) (s : Vec3) (v : Vec3)
    (q1 : Quat) (s1 : Vec3) :
    getWorldPosition [⟨none, p, q, s⟩, ⟨some 0, v, q1, s1⟩] 1 =
      Vec3.add (Mat3.mulVec (composeLin q s) v) p := by
  simp [getWorldPosition, worldAffine, Object3D.trs, Affine.comp]

theorem childWorldPos_qid (p v : Vec3) (q1 : Quat) (s1 : Vec3) :
    getWorldPosition [⟨none, p, Quat.qid, Vec3.ones⟩, ⟨some 0, v, q1, s1⟩] 1 =
      Vec3.add v p := by
  rw [childWorldPos]
  obtain ⟨vx, vy, vz⟩ := v
  simp only [composeLin, Quat.qid, Vec3.ones, Mat3.mulVec, Vec3.smul,
    Vec3.add, Vec3.mk.injEq]
  refine ⟨by ring, by ring, by ring⟩

/-- C1 amended: in an inner CCD step the quaternion computed is indeed the
minimal-arc rotation between the world-space bone-to-end-effector and
bone-to-target unit directions, but the solver post-multiplies it onto the
bone's local quaternion without converting it into the bone's local frame.
When the bone's pre-update world rotation is the identity — here a root
chain bone in rest orientation with unit scale — the recomputed
bone-to-end-effector direction does align with the bone-to-target
direction immediately after the update; for a non-identity world rotation
it does not (see the counterexample). -/
theorem c1_amended_alignment (p v t : Vec3) (q1 : Quat) (s1 : Vec3)
    (hv : Vec3.lengthSq v ≠ 0) (ht : Vec3.lengthSq (Vec3.sub t p) ≠ 0)
    (hdist : ¬ ccdDist [0, 1] t
      [⟨none, p, Quat.qid, Vec3.ones⟩, ⟨some 0, v, q1, s1⟩] < threshold)
    (heps : ¬ (Vec3.dot (Vec3.normalize v)
      (Vec3.normalize (Vec3.sub t p)) + 1 < numEpsilon)) :
    ccdIteration [0, 1] t
        [⟨none, p, Quat.qid, Vec3.ones⟩, ⟨some 0, v, q1, s1⟩] =
      ccdApply [0, 1] t 0
        [⟨none, p, Quat.qid, Vec3.ones⟩, ⟨some 0, v, q1, s1⟩] ∧
    ccdApply [0, 1] t 0
        [⟨none, p, Quat.qid, Vec3.ones⟩, ⟨some 0, v, q1, s1⟩] =
      [⟨none, p, Quat.setFromUnitVectors (Vec3.normalize v)
          (Vec3.normalize (Vec3.sub t p)), Vec3.ones⟩,
       ⟨some 0, v, q1, s1⟩] ∧
    Vec3.normalize (Vec3.sub
        (getWorldPosition (ccdApply [0, 1] t 0
          [⟨none, p, Quat.qid, Vec3.ones⟩, ⟨some 0, v, q1, s1⟩]) 1)
        (getWorldPosition (ccdApply [0, 1] t 0
          [⟨none, p, Quat.qid, Vec3.ones⟩, ⟨some 0, v, q1, s1⟩]) 0)) =
      Vec3.normalize (Vec3.sub t
        (getWorldPosition (ccdApply [0, 1] t 0
          [⟨none, p, Quat.qid, Vec3.ones⟩, ⟨some 0, v, q1, s1⟩]) 0)) := by
  have step1 : ccdApply [0, 1] t 0
      [⟨none, p, Quat.qid, Vec3.ones⟩, ⟨some 0, v, q1, s1⟩] =
      ([⟨none, p, Quat.qid, Vec3.ones⟩,
        ⟨some 0, v, q1, s1⟩] : World).set 0
        ⟨none, p, Quat.mul Quat.qid (Quat.setFromUnitVectors
          (Vec3.normalize (Vec3.sub
            (getWorldPosition [⟨none, p, Quat.qid, Vec3.ones⟩,
              ⟨some 0, v, q1, s1⟩] 1)
            (getWorldPosition [⟨none, p, Quat.qid, Vec3.ones⟩,
              ⟨some 0, v, q1, s1⟩] 0)))
          (Vec3.normalize (Vec3.sub t
            (getWorldPosition [⟨none, p, Quat.qid, Vec3.ones⟩,
              ⟨some 0, v, q1, s1⟩] 0)))), Vec3.ones⟩ := rfl
  have happly : ccdApply [0, 1] t 0
      [⟨none, p, Quat.qid, Vec3.ones⟩, ⟨some 0, v, q1, s1⟩] =
      [⟨none, p, Quat.setFromUnitVectors (Vec3.normalize v)
          (Vec3.normalize (Vec3.sub t p)), Vec3.ones⟩,
       ⟨some 0, v, q1, s1⟩] := by
    rw [step1, rootWorldPos, childWorldPos_qid, Vec3.sub_add_cancel_right,
      Quat.qid_mul]
    rfl
  have hiter : ccdIteration [0, 1] t
      [⟨none, p, Quat.qid, Vec3.ones⟩, ⟨some 0, v, q1, s1⟩] =
      ccdApply [0, 1] t 0
        [⟨none, p, Quat.qid, Vec3.ones⟩, ⟨some 0, v, q1, s1⟩] := by
    have step : ccdIteration [0, 1] t
        [⟨none, p, Quat.qid, Vec3.ones⟩, ⟨some 0, v, q1, s1⟩] =
        ccdInnerFrom [0, 1] t 0
          [⟨none, p, Quat.qid, Vec3.ones⟩, ⟨some 0, v, q1, s1⟩] := rfl
    rw [step]
    simp only [ccdInnerFrom]
    rw [if_neg hdist]
  refine ⟨hiter, happly, ?_⟩
  rw [happly, rootWorldPos, childWorldPos, Vec3.sub_add_cancel_right]
  have hrpos : 0 < Vec3.dot (Vec3.normalize v)
      (Vec3.normalize (Vec3.sub t p)) + 1 := by
    have h1 := not_lt.1 heps
    have h2 : (0 : ℝ) < numEpsilon := by norm_num [numEpsilon]
    linarith
  rw [show Quat.setFromUnitVectors (Vec3.normalize v)
      (Vec3.normalize (Vec3.sub t p)) =
      Quat.normalizeQ
        ⟨(Vec3.normalize v).y * (Vec3.normalize (Vec3.sub t p)).z -
            (Vec3.normalize v).z * (Vec3.normalize (Vec3.sub t p)).y,
          (Vec3.normalize v).z * (Vec3.normalize (Vec3.sub t p)).x -
            (Vec3.normalize v).x * (Vec3.normalize (Vec3.sub t p)).z,
          (Vec3.normalize v).x * (Vec3.normalize (Vec3.sub t p)).y -
            (Vec3.normalize v).y * (Vec3.normalize (Vec3.sub t p)).x,
          Vec3.dot (Vec3.normalize v) (Vec3.normalize (Vec3.sub t p)) + 1⟩
      from by
    simp only [Quat.setFromUnitVectors]
    rw [if_neg heps]]
  rw [mulVec_eq_smul_normalize _ v hv]
  rw [minimalArc_maps (Vec3.normalize v) (Vec3.normalize (Vec3.sub t p))
    (Vec3.lengthSq_normalize v hv) (Vec3.lengthSq_normalize _ ht) hrpos]
  exact Vec3.normalize_smul_unit (Vec3.length v)
    (Real.sqrt_pos.2 (lt_of_le_of_ne (Vec3.lengthSq_nonneg v) (Ne.symm hv)))
    _ (Vec3.lengthSq_normalize _ ht)

theorem sqrt_two_ne_zero : Real.sqrt 2 ≠ 0 := by
  rw [Real.sqrt_ne_zero']
  norm_num

theorem one_le_sqrt_two : (1 : ℝ) ≤ Real.sqrt 2 := by
  rw [show (1 : ℝ) = Real.sqrt 1 from Real.sqrt_one.symm]
  exact Real.sqrt_le_sqrt (by norm_num)

/-- C1 counterexample: in the two-bone chain `wFlip` whose root bone
carries a 180°-about-x world rotation, the first inner step of the solver
genuinely fires (distance √2 ≥ 0.01) and applies the minimal-arc
world-space quaternion as a local post-multiplication; immediately after
the update the recomputed bone-to-end-effector direction is (−1,0,0),
the exact opposite of the bone-to-target direction (1,0,0) — the claimed
post-update alignment fails. -/
theorem c1_counterexample :
    ¬ (ccdDist [0, 1] (⟨1, 0, 0⟩ : Vec3) wFlip < threshold) ∧
    ccdIteration [0, 1] (⟨1, 0, 0⟩ : Vec3) wFlip =
      ccdApply [0, 1] (⟨1, 0, 0⟩ : Vec3) 0 wFlip ∧
    Vec3.normalize (Vec3.sub
        (getWorldPosition (ccdApply [0, 1] (⟨1, 0, 0⟩ : Vec3) 0 wFlip) 1)
        (getWorldPosition (ccdApply [0, 1] (⟨1, 0, 0⟩ : Vec3) 0 wFlip) 0)) ≠
      Vec3.normalize (Vec3.sub (⟨1, 0, 0⟩ : Vec3)
        (getWorldPosition (ccdApply [0, 1] (⟨1, 0, 0⟩ : Vec3) 0 wFlip) 0)) := by
  have hw0 : getWorldPosition wFlip 0 = ⟨0, 0, 0⟩ := by
    rw [show wFlip = [⟨none, ⟨0, 0, 0⟩, ⟨1, 0, 0, 0⟩, Vec3.ones⟩,
      ⟨some 0, ⟨0, 1, 0⟩, Quat.qid, Vec3.ones⟩] from rfl, rootWorldPos]
  have hw1 : getWorldPosition wFlip 1 = ⟨0, -1, 0⟩ := by
    rw [show wFlip = [⟨none, ⟨0, 0, 0⟩, ⟨1, 0, 0, 0⟩, Vec3.ones⟩,
      ⟨some 0, ⟨0, 1, 0⟩, Quat.qid, Vec3.ones⟩] from rfl, childWorldPos]
    norm_num [composeLin, Mat3.mulVec, Vec3.smul, Vec3.add, Vec3.ones]
  have hdist : ¬ (ccdDist [0, 1] (⟨1, 0, 0⟩ : Vec3) wFlip < threshold) := by
    rw [ccdDist, show eeIndex [0, 1] = 1 from rfl, hw1]
    have h2 : Vec3.distanceTo ⟨0, -1, 0⟩ ⟨1, 0, 0⟩ = Real.sqrt 2 := by
      rw [Vec3.distanceTo]
      norm_num [Vec3.sub, Vec3.lengthSq]
    rw [h2]
    intro hlt
    have h1 := one_le_sqrt_two
    norm_num [threshold] at hlt
    linarith
  have hsub1 : Vec3.sub (⟨0, -1, 0⟩ : Vec3) ⟨0, 0, 0⟩ = ⟨0, -1, 0⟩ := by
    norm_num [Vec3.sub]
  have hsubT : Vec3.sub (⟨1, 0, 0⟩ : Vec3) ⟨0, 0, 0⟩ = ⟨1, 0, 0⟩ := by
    norm_num [Vec3.sub]
  have hnE : Vec3.normalize (⟨0, -1, 0⟩ : Vec3) = ⟨0, -1, 0⟩ := by
    rw [Vec3.normalize_of_ne _ (by norm_num [Vec3.lengthSq])]
    norm_num [Vec3.lengthSq, Real.sqrt_one]
  have hnT : Vec3.normalize (⟨1, 0, 0⟩ : Vec3) = ⟨1, 0, 0⟩ := by
    rw [Vec3.normalize_of_ne _ (by norm_num [Vec3.lengthSq])]
    norm_num [Vec3.lengthSq, Real.sqrt_one]
  have hsfu : Quat.setFromUnitVectors ⟨0, -1, 0⟩ ⟨1, 0, 0⟩ =
      ⟨0, 0, 1 / Real.sqrt 2, 1 / Real.sqrt 2⟩ := by
    have hcond : ¬ (Vec3.dot ⟨0, -1, 0⟩ ⟨1, 0, 0⟩ + 1 < numEpsilon) := by
      norm_num [Vec3.dot, numEpsilon]
    simp only [Quat.setFromUnitVectors]
    rw [if_neg hcond]
    rw [show (⟨(⟨0, -1, 0⟩ : Vec3).y * (⟨1, 0, 0⟩ : Vec3).z -
        (⟨0, -1, 0⟩ : Vec3).z * (⟨1, 0, 0⟩ : Vec3).y,
        (⟨0, -1, 0⟩ : Vec3).z * (⟨1, 0, 0⟩ : Vec3).x -
        (⟨0, -1, 0⟩ : Vec3).x * (⟨1, 0, 0⟩ : Vec3).z,
        (⟨0, -1, 0⟩ : Vec3).x * (⟨1, 0, 0⟩ : Vec3).y -
        (⟨0, -1, 0⟩ : Vec3).y * (⟨1, 0, 0⟩ : Vec3).x,
        Vec3.dot ⟨0, -1, 0⟩ ⟨1, 0, 0⟩ + 1⟩ : Quat) = ⟨0, 0, 1, 1⟩ from by
      norm_num [Vec3.dot]]
    rw [Quat.normalizeQ_eq _ (by norm_num [Quat.lengthSq])]
    norm_num [Quat.lengthSq]
  have hqm : Quat.mul ⟨1, 0, 0, 0⟩ ⟨0, 0, 1 / Real.sqrt 2, 1 / Real.sqrt 2⟩ =
      ⟨1 / Real.sqrt 2, -(1 / Real.sqrt 2), 0, 0⟩ := by
    simp only [Quat.mul, Quat.mk.injEq]
    norm_num
  have happly : ccdApply [0, 1] (⟨1, 0, 0⟩ : Vec3) 0 wFlip =
      [⟨none, ⟨0, 0, 0⟩,
        ⟨1 / Real.sqrt 2, -(1 / Real.sqrt 2), 0, 0⟩, Vec3.ones⟩,
       ⟨some 0, ⟨0, 1, 0⟩, Quat.qid, Vec3.ones⟩] := by
    have step1 : ccdApply [0, 1] (⟨1, 0, 0⟩ : Vec3) 0 wFlip =
        wFlip.set 0 ⟨none, ⟨0, 0, 0⟩, Quat.mul ⟨1, 0, 0, 0⟩
          (Quat.setFromUnitVectors
            (Vec3.normalize (Vec3.sub (getWorldPosition wFlip 1)
              (getWorldPosition wFlip 0)))
            (Vec3.normalize (Vec3.sub ⟨1, 0, 0⟩
              (getWorldPosition wFlip 0)))), Vec3.ones⟩ := rfl
    rw [step1, hw0, hw1, hsub1, hsubT, hnE, hnT, hsfu, hqm]
    rfl
  have hiter : ccdIteration [0, 1] (⟨1, 0, 0⟩ : Vec3) wFlip =
      ccdApply [0, 1] (⟨1, 0, 0⟩ : Vec3) 0 wFlip := by
    have step : ccdIteration [0, 1] (⟨1, 0, 0⟩ : Vec3) wFlip =
        ccdInnerFrom [0, 1] ⟨1, 0, 0⟩ 0 wFlip := rfl
    rw [step]
    simp only [ccdInnerFrom]
    rw [if_neg hdist]
  have hw0' : getWorldPosition
      (ccdApply [0, 1] (⟨1, 0, 0⟩ : Vec3) 0 wFlip) 0 = ⟨0, 0, 0⟩ := by
    rw [happly, rootWorldPos]
  have hw1' : getWorldPosition
      (ccdApply [0, 1] (⟨1, 0, 0⟩ : Vec3) 0 wFlip) 1 = ⟨-1, 0, 0⟩ := by
    rw [happly, childWorldPos]
    rw [show (⟨1 / Real.sqrt 2, -(1 / Real.sqrt 2), 0, 0⟩ : Quat) =
      ⟨1 / Real.sqrt 2, (-1) / Real.sqrt 2, 0 / Real.sqrt 2,
        0 / Real.sqrt 2⟩ from by norm_num [one_div, neg_div]]
    rw [composeLin_div_mulVec 1 (-1) 0 0 (Real.sqrt 2) sqrt_two_ne_zero
      ⟨0, 1, 0⟩]
    rw [Real.mul_self_sqrt (by norm_num : (0 : ℝ) ≤ 2)]
    norm_num [Vec3.add]
  refine ⟨hdist, hiter, ?_⟩
  rw [hw0', hw1', hsubT,
    show Vec3.sub (⟨-1, 0, 0⟩ : Vec3) ⟨0, 0, 0⟩ = ⟨-1, 0, 0⟩ from by
      norm_num [Vec3.sub], hnT,
    show Vec3.normalize (⟨-1, 0, 0⟩ : Vec3) = ⟨-1, 0, 0⟩ from by
      rw [Vec3.normalize_of_ne _ (by norm_num [Vec3.lengthSq])]
      norm_num [Vec3.lengthSq, Real.sqrt_one]]
  intro hEq
  have := congrArg Vec3.x hEq
  norm_num at this

/-- Witness for C1's amended claim: a rest-pose root bone (identity
rotation) at the origin with its end effector one unit along x and target
(0,2,0): after the inner step fires, the new bone-to-end-effector
direction equals the bone-to-target direction exactly. -/
theorem c1_amended_alignment_witness :
    Vec3.normalize (Vec3.sub
        (getWorldPosition (ccdApply [0, 1] ⟨0, 2, 0⟩ 0
          [⟨none, ⟨0, 0, 0⟩, Quat.qid, Vec3.ones⟩,
           ⟨some 0, ⟨1, 0, 0⟩, Quat.qid, Vec3.ones⟩]) 1)
        (getWorldPosition (ccdApply [0, 1] ⟨0, 2, 0⟩ 0
          [⟨none, ⟨0, 0, 0⟩, Quat.qid, Vec3.ones⟩,
           ⟨some 0, ⟨1, 0, 0⟩, Quat.qid, Vec3.ones⟩]) 0)) =
      Vec3.normalize (Vec3.sub (⟨0, 2, 0⟩ : Vec3)
        (getWorldPosition (ccdApply [0, 1] ⟨0, 2, 0⟩ 0
          [⟨none, ⟨0, 0, 0⟩, Quat.qid, Vec3.ones⟩,
           ⟨some 0, ⟨1, 0, 0⟩, Quat.qid, Vec3.ones⟩]) 0)) := by
  refine (c1_amended_alignment ⟨0, 0, 0⟩ ⟨1, 0, 0⟩ ⟨0, 2, 0⟩ Quat.qid
    Vec3.ones ?_ ?_ ?_ ?_).2.2
  · norm_num [Vec3.lengthSq]
  · norm_num [Vec3.lengthSq, Vec3.sub]
  · rw [ccdDist, show eeIndex [0, 1] = 1 from rfl, childWorldPos_qid]
    rw [show Vec3.add ⟨1, 0, 0⟩ ⟨0, 0, 0⟩ = (⟨1, 0, 0⟩ : Vec3) from by
      norm_num [Vec3.add]]
    rw [show Vec3.distanceTo ⟨1, 0, 0⟩ ⟨0, 2, 0⟩ = Real.sqrt 5 from by
      rw [Vec3.distanceTo]
      norm_num [Vec3.sub, Vec3.lengthSq]]
    intro hlt
    have h1 : (1 : ℝ) ≤ Real.sqrt 5 := by
      rw [show (1 : ℝ) = Real.sqrt 1 from Real.sqrt_one.symm]
      exact Real.sqrt_le_sqrt (by norm_num)
    norm_num [threshold] at hlt
    linarith
  · rw [Vec3.normalize_of_ne _
        (by norm_num [Vec3.lengthSq] :
          Vec3.lengthSq (⟨1, 0, 0⟩ : Vec3) ≠ 0),
      Vec3.normalize_of_ne _
        (by norm_num [Vec3.lengthSq, Vec3.sub] :
          Vec3.lengthSq (Vec3.sub (⟨0, 2, 0⟩ : Vec3) ⟨0, 0, 0⟩) ≠ 0)]
    norm_num [Vec3.dot, Vec3.sub, numEpsilon]
